import Mathlib

/-!
Verification of the privacy/anonymization processing engine
(`app/services/privacy_processor.py`) of the globe-data/globe-2 repository.

The engine is shallowly embedded: Python values are the inductive `PyVal`,
a record (Python `dict`) is an insertion-ordered association list, and each
transform method of `PrivacyProcessor` becomes a Lean function folding over
the requested field list exactly as the Python `for` loop does.  Raising an
exception is modelled with `Except`/`Option`.  The two sources of
nondeterminism in the original (the Laplace / Gaussian noise draws of the
differential and synthetic levels, and the `datetime.utcnow()` timestamp)
are passed in as explicit parameters.
-/

set_option autoImplicit false

/-- Python values as they occur in the records handled by the engine:
integers, strings, booleans, `None`, dictionaries (insertion ordered) and
lists.  CPython floats are IEEE-754 and are not modelled. -/
inductive PyVal where
  | int (n : Int)
  | str (s : String)
  | bool (b : Bool)
  | none
  | dict (entries : List (String × PyVal))
  | list (elems : List PyVal)

/-- A record: a Python `dict` with string keys, kept in insertion order. -/
abbrev Record := List (String × PyVal)

/-- Python `data[key]` / `key in data`: the value at the first matching key. -/
def lookupField : Record → String → Option PyVal
  | [], _ => Option.none
  | (k, v) :: rest, key => if k = key then some v else lookupField rest key

/-- Python `data[key] = v`: replace the value at an existing key in place
(keeping its position), or append a fresh entry at the end. -/
def setField : Record → String → PyVal → Record
  | [], key, v => [(key, v)]
  | (k, w) :: rest, key, v =>
      if k = key then (k, v) :: rest else (k, w) :: setField rest key v

/-- Python truthiness (`bool(v)`): zero, the empty string, `False`, `None`
and empty containers are falsy. -/
def PyVal.truthy : PyVal → Bool
  | .int n => n != 0
  | .str s => s ≠ ""
  | .bool b => b
  | .none => false
  | .dict entries => !entries.isEmpty
  | .list elems => !elems.isEmpty

/-- Python `str(v)`.  The scalar cases match CPython exactly; the rendering
of nested containers is schematic (no claim evaluates `str` on a container). -/
def PyVal.pyStr : PyVal → String
  | .int n => toString n
  | .str s => s
  | .bool b => if b then "True" else "False"
  | .none => "None"
  | .dict _ => "<dict>"
  | .list _ => "<list>"

/-- Python `isinstance(v, (int, float))`.  Note that in CPython `bool` is a
subtype of `int`, so booleans count as numeric. -/
def PyVal.isNumeric : PyVal → Bool
  | .int _ => true
  | .bool _ => true
  | _ => false

/-- The exceptions relevant to `process_data`.  The code itself only ever
raises `ValueError`; `processingError` is the wrapper exception named by the
spec's error taxonomy (§7) and is included solely so that the spec's claim
about it can be stated — no code path constructs it. -/
inductive PyError where
  | valueError (msg : String)
  | processingError (cause : PyError)

/-- Whether an exception is the spec's generic `ProcessingError` wrapper. -/
def PyError.isProcessingError : PyError → Bool
  | .processingError _ => true
  | _ => false

/-- The sixteen lowercase hex digit characters, built from their character
codes (48 is the code of the zero digit, 97 that of the letter a). -/
def hexChars : List Char :=
  (List.range 16).map (fun n => if n < 10 then Char.ofNat (48 + n) else Char.ofNat (87 + n))

/-- The lowercase hex digit for `n % 16`. -/
def hexDigit (n : Nat) : Char :=
  hexChars.getD (n % 16) '0'

/-- Two-character lowercase hex rendering of one byte. -/
def byteToHex (b : Nat) : String :=
  String.mk [hexDigit (b / 16), hexDigit b]

/-- Lowercase hex rendering of a byte sequence, two characters per byte. -/
def bytesToHex : List Nat → String
  | [] => ""
  | b :: bs => byteToHex b ++ bytesToHex bs

/-- The UTF-8 bytes of a string (`s.encode()` in Python). -/
def strBytes (s : String) : List Nat :=
  s.toUTF8.toList.map (fun b => b.toNat)

/-- One mixing step of the stand-in digest. -/
def mixByte (acc b : Nat) : Nat :=
  (acc * 131 + b + 17) % (2 ^ 61)

/-- Byte `i` of the stand-in 32-byte keyed digest of `key` and `msg`. -/
def digestByte (key msg : String) (i : Nat) : Nat :=
  ((strBytes key ++ (i + 1) :: strBytes msg).foldl mixByte (i * 97 + 3)) % 256

/-- Modelled from the spec: `hmac.new(key.encode(), msg, hashlib.sha256).hexdigest()`
(the `hmac`/`hashlib` library functions are outside the repository).  The
model keeps the interface the code relies on — a deterministic keyed
function of exactly `key` and `msg` producing a 32-byte digest rendered as
64 lowercase hex characters — while the compression function itself is a
schematic stand-in for SHA-256. -/
def hmacSha256Hexdigest (key msg : String) : String :=
  bytesToHex ((List.range 32).map (digestByte key msg))

/-- Modelled from the spec: `Fernet(key).encrypt(plaintext.encode()).decode()`
(the `cryptography.fernet` library is outside the repository).  Modelled as
an opaque deterministic function of the key and the plaintext; no claim
depends on the ciphertext's form. -/
def fernetEncrypt (key plaintext : String) : String :=
  "gAAAAA" ++ hmacSha256Hexdigest key plaintext

/-- The eight privacy levels of the `PrivacyLevels` enum. -/
inductive PrivacyLevels where
  | raw
  | tokenized
  | pseudonymized
  | redacted
  | generalized
  | differential
  | aggregated
  | synthetic

/-- The string value of each `PrivacyLevels` member. -/
def PrivacyLevels.value : PrivacyLevels → String
  | .raw => "raw"
  | .tokenized => "tokenized"
  | .pseudonymized => "pseudo"
  | .redacted => "redacted"
  | .generalized => "generalized"
  | .differential => "differential"
  | .aggregated => "aggregated"
  | .synthetic => "synthetic"

/-- A Python `int` read out of a value, as the `//` operator sees it
(booleans are ints); `Option.none` models a `TypeError`. -/
def asPyInt : PyVal → Option Int
  | .int n => some n
  | .bool b => some (if b then 1 else 0)
  | _ => Option.none

/-- The `'age'` generalization rule:
`lambda x: f"{(x//10)*10}-{(x//10)*10+9}"`; `Int.fdiv` is Python's floor
division.  `Option.none` models the lambda raising (e.g. `TypeError` on a
string). -/
def ageRule (v : PyVal) : Option PyVal :=
  (asPyInt v).map (fun n =>
    .str (toString (n.fdiv 10 * 10) ++ "-" ++ toString (n.fdiv 10 * 10 + 9)))

/-- The `'income'` generalization rule:
`lambda x: f"{(x//10000)*10000}-{(x//10000)*10000+9999}"`. -/
def incomeRule (v : PyVal) : Option PyVal :=
  (asPyInt v).map (fun n =>
    .str (toString (n.fdiv 10000 * 10000) ++ "-" ++
      toString (n.fdiv 10000 * 10000 + 9999)))

/-- The `'location'` generalization rule: `lambda x: x.split(',')[0]`;
raises (`Option.none`) on non-strings. -/
def locationRule : PyVal → Option PyVal
  | .str s => some (.str ((s.splitOn ",").headD ""))
  | _ => Option.none

/-- `self.generalization_rules`: the default rule table built in
`__init__`, keyed by field name. -/
def generalization_rules (field : String) : Option (PyVal → Option PyVal) :=
  if field = "age" then some ageRule
  else if field = "income" then some incomeRule
  else if field = "location" then some locationRule
  else Option.none

/-- One iteration of the `_encrypt_sensitive_fields` loop: a field present
and truthy is replaced by the Fernet ciphertext of its string form. -/
def encryptStep (key : String) (d : Record) (field : String) : Record :=
  match lookupField d field with
  | some v => if v.truthy then setField d field (.str (fernetEncrypt key v.pyStr)) else d
  | Option.none => d

/-- `_encrypt_sensitive_fields`: for each requested field present and
truthy, replace the value by the Fernet ciphertext of its string form.
(The `try`/`except` re-raises unchanged; the modelled cipher is total.) -/
def encrypt_sensitive_fields (key : String) (data : Record) (fields : List String) : Record :=
  fields.foldl (encryptStep key) data

/-- One iteration of the `_tokenize_fields` loop: a field present and
truthy is replaced by `TOK_` followed by the full keyed hex digest of its
string form. -/
def tokenStep (key : String) (d : Record) (field : String) : Record :=
  match lookupField d field with
  | some v =>
      if v.truthy then
        setField d field (.str ("TOK_" ++ hmacSha256Hexdigest key v.pyStr))
      else d
  | Option.none => d

/-- `_tokenize_fields`: for each requested field present and truthy,
replace the value by `TOK_` followed by the full keyed hex digest of its
string form. -/
def tokenize_fields (key : String) (data : Record) (fields : List String) : Record :=
  fields.foldl (tokenStep key) data

/-- One iteration of the `_pseudonymize_fields` loop: a field present and
truthy is replaced by `PSEUDO_<field>_` followed by the first 12 characters
of the keyed hex digest of its string form.  The hash input is only the
stringified value — the field name enters the output solely via the prefix. -/
def pseudoStep (key : String) (d : Record) (field : String) : Record :=
  match lookupField d field with
  | some v =>
      if v.truthy then
        setField d field
          (.str ("PSEUDO_" ++ field ++ "_" ++ (hmacSha256Hexdigest key v.pyStr).take 12))
      else d
  | Option.none => d

/-- `_pseudonymize_fields`: for each requested field present and truthy,
replace the value by the field-prefixed truncated keyed digest. -/
def pseudonymize_fields (key : String) (data : Record) (fields : List String) : Record :=
  fields.foldl (pseudoStep key) data

/-- One iteration of the `_redact_fields` loop: a field present in the
record (truthy or not) is replaced by the fixed sentinel `"[REDACTED]"`. -/
def redactStep (d : Record) (field : String) : Record :=
  match lookupField d field with
  | some _ => setField d field (.str "[REDACTED]")
  | Option.none => d

/-- `_redact_fields`: every requested field present in the record is
replaced by the fixed sentinel `"[REDACTED]"`; no key is used. -/
def redact_fields (data : Record) (fields : List String) : Record :=
  fields.foldl redactStep data

/-- One iteration of the `_generalize_fields` loop: a field present and
having a registered rule gets the rule applied; if the rule raises, the
field is set to the sentinel `"GENERALIZATION_ERROR"` instead. -/
def generalizeStep (d : Record) (field : String) : Record :=
  match lookupField d field, generalization_rules field with
  | some v, some rule =>
      match rule v with
      | some w => setField d field w
      | Option.none => setField d field (.str "GENERALIZATION_ERROR")
  | _, _ => d

/-- `_generalize_fields`: for each requested field present and having a
registered rule, apply the rule; a raising rule yields the error sentinel
and the loop continues with the remaining fields. -/
def generalize_fields (data : Record) (fields : List String) : Record :=
  fields.foldl generalizeStep data

/-- `_apply_differential_privacy`: numeric fields get additive Laplace
noise; the draw is the explicit parameter `noise` and the float arithmetic
is modelled over `Int` (no claim exercises this level). -/
def apply_differential_privacy (noise : String → Int) (data : Record) (fields : List String) : Record :=
  fields.foldl (fun d field =>
    match lookupField d field with
    | some v =>
        match asPyInt v with
        | some n => if v.isNumeric then setField d field (.int (n + noise field)) else d
        | Option.none => d
    | Option.none => d) data

/-- The summary value `_aggregate_data` writes for one field: a
`count`/`sum`/`avg` block for numeric values (`count` is always 1), a
`categories` frequency map keyed by `str(value)` otherwise. -/
def fieldSummary (v : PyVal) : PyVal :=
  if v.isNumeric then
    .dict [("type", .str "numeric"), ("count", .int 1), ("sum", v), ("avg", v)]
  else
    .dict [("type", .str "categorical"), ("categories", .dict [(v.pyStr, .int 1)])]

/-- One iteration of the `_aggregate_data` loop: a field present in the
input record contributes the entry `<field>_summary`; values are read from
the unmodified input `data`. -/
def aggStep (data agg : Record) (field : String) : Record :=
  match lookupField data field with
  | some v => setField agg (field ++ "_summary") (fieldSummary v)
  | Option.none => agg

/-- `_aggregate_data`: builds a fresh record; each requested field present
in the input becomes `<field>_summary`, a numeric `count`/`sum`/`avg`
summary for numeric values and a `categories` frequency map otherwise. -/
def aggregate_data (data : Record) (fields : List String) : Record :=
  fields.foldl (aggStep data) ([] : Record)

/-- `_generate_synthetic`: numeric fields get multiplicative noise (the
draw is the parameter `noise`, modelled over `Int`); other fields become
the sentinel `SYNTHETIC_<field>`.  Values are read from the unmodified
input record, writes go to its copy. -/
def generate_synthetic (noise : String → Int) (data : Record) (fields : List String) : Record :=
  fields.foldl (fun syn field =>
    match lookupField data field with
    | some v =>
        match asPyInt v with
        | some n => if v.isNumeric then setField syn field (.int (n * noise field)) else
            setField syn field (.str ("SYNTHETIC_" ++ field))
        | Option.none => setField syn field (.str ("SYNTHETIC_" ++ field))
    | Option.none => syn) data

/-- The `_privacy` metadata block stamped by `process_data`: the level's
string value, the timestamp, and the requested field list verbatim. -/
def privacyMetadata (level : PrivacyLevels) (now : String) (fields : List String) : PyVal :=
  .dict [("level", .str level.value),
         ("processed_at", .str now),
         ("fields_processed", .list (fields.map PyVal.str))]

/-- `PrivacyProcessor.process_data`.  `key` is the processor's encryption
key, `dnoise`/`snoise` the noise draws of the differential and synthetic
levels, `now` the `datetime.utcnow().isoformat()` timestamp.  Non-dict
input raises `ValueError`; otherwise the level's transform runs on a copy
and the `_privacy` block is stamped last.  The outer `try`/`except` logs
and re-raises the original exception unchanged. -/
def process_data (key : String) (dnoise snoise : String → Int) (data : PyVal)
    (privacy_level : PrivacyLevels) (sensitive_fields : List String) (now : String) :
    Except PyError PyVal :=
  match data with
  | .dict d =>
      let processed : Record :=
        match privacy_level with
        | .raw => encrypt_sensitive_fields key d sensitive_fields
        | .tokenized => tokenize_fields key d sensitive_fields
        | .pseudonymized => pseudonymize_fields key d sensitive_fields
        | .redacted => redact_fields d sensitive_fields
        | .generalized => generalize_fields d sensitive_fields
        | .differential => apply_differential_privacy dnoise d sensitive_fields
        | .aggregated => aggregate_data d sensitive_fields
        | .synthetic => generate_synthetic snoise d sensitive_fields
      .ok (.dict (setField processed "_privacy" (privacyMetadata privacy_level now sensitive_fields)))
  | _ => .error (.valueError "Input data must be a dictionary")

/-- Whether a value is a Python dict (`isinstance(data, dict)`). -/
def PyVal.isDict : PyVal → Bool
  | .dict _ => true
  | _ => false

/-- Whether a `process_data` call returned normally. -/
def isOkResult : Except PyError PyVal → Bool
  | .ok _ => true
  | .error _ => false

/-- The `_privacy` entry of a successful `process_data` result. -/
def resultPrivacy : Except PyError PyVal → Option PyVal
  | .ok (.dict entries) => lookupField entries "_privacy"
  | _ => Option.none

/-! ### Association-list lemmas -/

theorem lookupField_setField_self (d : Record) (k : String) (v : PyVal) :
    lookupField (setField d k v) k = some v := by
  induction d with
  | nil => simp [setField, lookupField]
  | cons hd tl ih =>
      obtain ⟨k', w⟩ := hd
      by_cases h : k' = k
      · simp [setField, lookupField, h]
      · simp [setField, lookupField, h, ih]

theorem lookupField_setField_ne (d : Record) (k k' : String) (v : PyVal) (h : k' ≠ k) :
    lookupField (setField d k v) k' = lookupField d k' := by
  have hkk : ¬k = k' := fun hh => h hh.symm
  induction d with
  | nil =>
      simp only [setField, lookupField]
      rw [if_neg hkk]
  | cons hd tl ih =>
      obtain ⟨k0, w⟩ := hd
      by_cases h0 : k0 = k
      · subst h0
        simp only [setField, if_pos rfl, lookupField]
        rw [if_neg hkk, if_neg hkk]
      · simp only [setField, lookupField, if_neg h0]
        by_cases h1 : k0 = k' <;> simp [lookupField, h1, ih]

theorem setField_eq_of_lookup (d : Record) (k : String) (v : PyVal)
    (h : lookupField d k = some v) : setField d k v = d := by
  induction d with
  | nil => simp [lookupField] at h
  | cons hd tl ih =>
      obtain ⟨k0, w⟩ := hd
      by_cases h0 : k0 = k
      · subst h0
        simp [lookupField] at h
        simp [setField, h]
      · simp [lookupField, h0] at h
        simp [setField, h0, ih h]

/-! ### Redaction lemmas -/

theorem redact_fields_cons (d : Record) (f : String) (fs : List String) :
    redact_fields d (f :: fs) = redact_fields (redactStep d f) fs := rfl

theorem redactStep_lookup_some (d : Record) (f : String) (v : PyVal)
    (h : lookupField d f = some v) :
    redactStep d f = setField d f (.str "[REDACTED]") := by
  simp [redactStep, h]

theorem lookupField_redactStep_sentinel (d : Record) (f g : String)
    (h : lookupField d f = some (.str "[REDACTED]")) :
    lookupField (redactStep d g) f = some (.str "[REDACTED]") := by
  by_cases hfg : f = g
  · subst hfg
    simp [redactStep, h, lookupField_setField_self]
  · cases hd : lookupField d g with
    | none => simp [redactStep, hd, h]
    | some v => simp [redactStep, hd, lookupField_setField_ne _ _ _ _ hfg, h]

theorem lookupField_redact_fields_sentinel (fields : List String) (d : Record) (f : String)
    (h : lookupField d f = some (.str "[REDACTED]")) :
    lookupField (redact_fields d fields) f = some (.str "[REDACTED]") := by
  induction fields generalizing d with
  | nil => simpa [redact_fields] using h
  | cons g gs ih =>
      rw [redact_fields_cons]
      exact ih _ (lookupField_redactStep_sentinel d f g h)

theorem lookupField_redactStep_isSome (d : Record) (f g : String)
    (h : (lookupField d f).isSome = true) :
    (lookupField (redactStep d g) f).isSome = true := by
  by_cases hfg : f = g
  · subst hfg
    cases hd : lookupField d f with
    | none => rw [hd] at h; simp at h
    | some v => simp [redactStep, hd, lookupField_setField_self]
  · cases hd : lookupField d g with
    | none => simp [redactStep, hd, h]
    | some v => simp [redactStep, hd, lookupField_setField_ne _ _ _ _ hfg, h]

theorem lookupField_redact_fields_mem (fields : List String) (d : Record) (f : String)
    (hmem : f ∈ fields) (h : (lookupField d f).isSome = true) :
    lookupField (redact_fields d fields) f = some (.str "[REDACTED]") := by
  induction fields generalizing d with
  | nil => cases hmem
  | cons g gs ih =>
      rw [redact_fields_cons]
      rcases List.mem_cons.mp hmem with rfl | hf
      · obtain ⟨v, hv⟩ := Option.isSome_iff_exists.mp h
        rw [redactStep_lookup_some d f v hv]
        exact lookupField_redact_fields_sentinel gs _ f (lookupField_setField_self d f _)
      · exact ih _ hf (lookupField_redactStep_isSome d f g h)

theorem lookupField_redact_fields_none (fields : List String) (d : Record) (f : String)
    (h : lookupField d f = Option.none) :
    lookupField (redact_fields d fields) f = Option.none := by
  induction fields generalizing d with
  | nil => simpa [redact_fields] using h
  | cons g gs ih =>
      rw [redact_fields_cons]
      apply ih
      by_cases hfg : f = g
      · subst hfg
        simp [redactStep, h]
      · cases hd : lookupField d g with
        | none => simp [redactStep, hd, h]
        | some v => simp [redactStep, hd, lookupField_setField_ne _ _ _ _ hfg, h]

theorem redactStep_redacted_id (d : Record) (fields : List String) (g : String)
    (hg : g ∈ fields) :
    redactStep (redact_fields d fields) g = redact_fields d fields := by
  cases ho : (lookupField d g).isSome with
  | false =>
      have h0 : lookupField d g = Option.none := by
        cases hl : lookupField d g
        · rfl
        · rw [hl] at ho; simp at ho
      have h1 := lookupField_redact_fields_none fields d g h0
      simp [redactStep, h1]
  | true =>
      have hv := lookupField_redact_fields_mem fields d g hg ho
      rw [redactStep_lookup_some _ _ _ hv]
      exact setField_eq_of_lookup _ _ _ hv

theorem redact_fields_sub_id (d : Record) (fields gs : List String)
    (hsub : ∀ g ∈ gs, g ∈ fields) :
    redact_fields (redact_fields d fields) gs = redact_fields d fields := by
  induction gs with
  | nil => rfl
  | cons g gs ih =>
      rw [redact_fields_cons,
        redactStep_redacted_id d fields g (hsub g (List.mem_cons_self g gs))]
      exact ih (fun x hx => hsub x (List.mem_cons_of_mem g hx))

/-! ### Digest shape lemmas -/

theorem hexDigit_mem (n : Nat) : hexDigit n ∈ hexChars := by
  have h : n % 16 < hexChars.length := by
    have h16 : n % 16 < 16 := Nat.mod_lt _ (by norm_num)
    simpa [hexChars] using h16
  rw [hexDigit, List.getD_eq_getElem hexChars '0' h]
  exact List.getElem_mem h

theorem byteToHex_length (b : Nat) : (byteToHex b).length = 2 := rfl

theorem bytesToHex_length (l : List Nat) : (bytesToHex l).length = 2 * l.length := by
  induction l with
  | nil => rfl
  | cons b bs ih =>
      rw [bytesToHex, String.length_append, byteToHex_length, ih, List.length_cons]
      omega

theorem hmacSha256Hexdigest_length (key msg : String) :
    (hmacSha256Hexdigest key msg).length = 64 := by
  rw [hmacSha256Hexdigest, bytesToHex_length]
  simp

theorem mem_hexChars_of_mem_byteToHex (b : Nat) (c : Char)
    (h : c ∈ (byteToHex b).data) : c ∈ hexChars := by
  have hd : (byteToHex b).data = [hexDigit (b / 16), hexDigit b] := rfl
  rw [hd] at h
  rcases h with _ | ⟨_, h⟩
  · exact hexDigit_mem _
  · rcases h with _ | ⟨_, h⟩
    · exact hexDigit_mem _
    · cases h

theorem mem_hexChars_of_mem_bytesToHex (l : List Nat) (c : Char)
    (h : c ∈ (bytesToHex l).data) : c ∈ hexChars := by
  induction l with
  | nil => cases h
  | cons b bs ih =>
      rw [bytesToHex, String.data_append] at h
      rcases List.mem_append.mp h with h1 | h2
      · exact mem_hexChars_of_mem_byteToHex b c h1
      · exact ih h2

theorem hmacSha256Hexdigest_all_hex (key msg : String) :
    (hmacSha256Hexdigest key msg).data.all (fun c => hexChars.contains c) = true := by
  rw [List.all_eq_true]
  intro c hc
  exact List.elem_eq_true_of_mem (mem_hexChars_of_mem_bytesToHex _ c hc)

theorem string_length_take (s : String) (n : Nat) :
    (s.take n).length = min n s.length := by
  rw [String.take_eq, String.length_mk, List.length_take]
  rfl

/-! ### String append cancellation -/

theorem string_append_right_cancel (a b c : String) (h : a ++ c = b ++ c) : a = b := by
  apply String.ext
  have hd := congrArg String.data h
  rw [String.data_append, String.data_append] at hd
  exact List.append_cancel_right hd

theorem string_append_left_cancel (a b c : String) (h : a ++ b = a ++ c) : b = c := by
  apply String.ext
  have hd := congrArg String.data h
  rw [String.data_append, String.data_append] at hd
  exact List.append_cancel_left hd

theorem pseudo_prefix_ne (f1 f2 t : String) (h : f1 ≠ f2) :
    "PSEUDO_" ++ f1 ++ "_" ++ t ≠ "PSEUDO_" ++ f2 ++ "_" ++ t := by
  intro he
  apply h
  have h1 := string_append_right_cancel _ _ _ he
  have h2 := string_append_right_cancel _ _ _ h1
  exact string_append_left_cancel _ _ _ h2

/-! ### Single-field transform computations -/

theorem tokenize_single (key f : String) (v : PyVal) (hv : v.truthy = true) :
    tokenize_fields key [(f, v)] [f]
      = [(f, .str ("TOK_" ++ hmacSha256Hexdigest key v.pyStr))] := by
  simp [tokenize_fields, tokenStep, lookupField, hv, setField]

theorem pseudo_single (key f : String) (v : PyVal) (hv : v.truthy = true) :
    pseudonymize_fields key [(f, v)] [f]
      = [(f, .str ("PSEUDO_" ++ f ++ "_" ++ (hmacSha256Hexdigest key v.pyStr).take 12))] := by
  simp [pseudonymize_fields, pseudoStep, lookupField, hv, setField]

/-! ### Falsy values are skipped -/

theorem encryptStep_falsy (key : String) (d : Record) (f : String)
    (h : ∀ v, lookupField d f = some v → v.truthy = false) :
    encryptStep key d f = d := by
  cases hd : lookupField d f with
  | none => simp [encryptStep, hd]
  | some v => simp [encryptStep, hd, h v hd]

theorem tokenStep_falsy (key : String) (d : Record) (f : String)
    (h : ∀ v, lookupField d f = some v → v.truthy = false) :
    tokenStep key d f = d := by
  cases hd : lookupField d f with
  | none => simp [tokenStep, hd]
  | some v => simp [tokenStep, hd, h v hd]

theorem pseudoStep_falsy (key : String) (d : Record) (f : String)
    (h : ∀ v, lookupField d f = some v → v.truthy = false) :
    pseudoStep key d f = d := by
  cases hd : lookupField d f with
  | none => simp [pseudoStep, hd]
  | some v => simp [pseudoStep, hd, h v hd]

theorem encrypt_fields_falsy (key : String) (d : Record) (fields : List String)
    (h : ∀ f ∈ fields, ∀ v, lookupField d f = some v → v.truthy = false) :
    encrypt_sensitive_fields key d fields = d := by
  induction fields with
  | nil => rfl
  | cons g gs ih =>
      show List.foldl (encryptStep key) d (g :: gs) = d
      rw [List.foldl_cons, encryptStep_falsy key d g (h g (List.mem_cons_self g gs))]
      exact ih (fun f hf v hv => h f (List.mem_cons_of_mem g hf) v hv)

theorem tokenize_fields_falsy (key : String) (d : Record) (fields : List String)
    (h : ∀ f ∈ fields, ∀ v, lookupField d f = some v → v.truthy = false) :
    tokenize_fields key d fields = d := by
  induction fields with
  | nil => rfl
  | cons g gs ih =>
      show List.foldl (tokenStep key) d (g :: gs) = d
      rw [List.foldl_cons, tokenStep_falsy key d g (h g (List.mem_cons_self g gs))]
      exact ih (fun f hf v hv => h f (List.mem_cons_of_mem g hf) v hv)

theorem pseudonymize_fields_falsy (key : String) (d : Record) (fields : List String)
    (h : ∀ f ∈ fields, ∀ v, lookupField d f = some v → v.truthy = false) :
    pseudonymize_fields key d fields = d := by
  induction fields with
  | nil => rfl
  | cons g gs ih =>
      show List.foldl (pseudoStep key) d (g :: gs) = d
      rw [List.foldl_cons, pseudoStep_falsy key d g (h g (List.mem_cons_self g gs))]
      exact ih (fun f hf v hv => h f (List.mem_cons_of_mem g hf) v hv)

/-! ### Aggregation lemmas -/

theorem aggStep_preserve (data : Record) (key : String) (w : PyVal)
    (gs : List String) (acc : Record) (hacc : lookupField acc key = some w)
    (hne : ∀ g ∈ gs, ¬(g ++ "_summary" = key)) :
    lookupField (gs.foldl (aggStep data) acc) key = some w := by
  induction gs generalizing acc with
  | nil => simpa using hacc
  | cons g gs ih =>
      rw [List.foldl_cons]
      apply ih
      · cases hd : lookupField data g with
        | none => simpa [aggStep, hd] using hacc
        | some v =>
            have hstep : aggStep data acc g = setField acc (g ++ "_summary") (fieldSummary v) := by
              simp [aggStep, hd]
            rw [hstep,
              lookupField_setField_ne _ _ _ _
                (fun hh => hne g (List.mem_cons_self g gs) hh.symm)]
            exact hacc
      · exact fun x hx => hne x (List.mem_cons_of_mem g hx)

theorem lookupField_aggregate (data : Record) (fields : List String) (f : String) (v : PyVal)
    (hmem : f ∈ fields) (hv : lookupField data f = some v) :
    lookupField (aggregate_data data fields) (f ++ "_summary") = some (fieldSummary v) := by
  suffices haux : ∀ (gs : List String) (acc : Record), f ∈ gs →
      lookupField (gs.foldl (aggStep data) acc) (f ++ "_summary") = some (fieldSummary v) by
    exact haux fields [] hmem
  intro gs
  induction gs with
  | nil => intro acc hmem0; cases hmem0
  | cons g gs ih =>
      intro acc hmem0
      rw [List.foldl_cons]
      by_cases hf : f ∈ gs
      · exact ih _ hf
      · have hfg : f = g := by
          rcases List.mem_cons.mp hmem0 with h1 | h2
          · exact h1
          · exact absurd h2 hf
        subst hfg
        have hstep : aggStep data acc f = setField acc (f ++ "_summary") (fieldSummary v) := by
          simp [aggStep, hv]
        rw [hstep]
        apply aggStep_preserve
        · exact lookupField_setField_self _ _ _
        · intro g hg heq
          exact hf (string_append_right_cancel g f "_summary" heq ▸ hg)

/-! ### Metadata stamping -/

theorem resultPrivacy_process_data (key : String) (dn sn : String → Int) (d : Record)
    (level : PrivacyLevels) (fields : List String) (now : String) :
    resultPrivacy (process_data key dn sn (.dict d) level fields now)
      = some (privacyMetadata level now fields) :=
  lookupField_setField_self _ _ _

/-! ### Claim C1: contents of the fields_processed metadata entry -/

/-- C1 counterexample: with record containing only "a" and requested fields
["a", "b"], the stamped fields_processed list is the full requested list
["a", "b"], even though "b" is absent from the record — not the present
subset ["a"] the claim describes. -/
theorem C1_counterexample :
    process_data "k" (fun _ => 0) (fun _ => 0) (.dict [("a", .int 1)]) .redacted ["a", "b"] "t"
      = .ok (.dict [("a", .str "[REDACTED]"),
                    ("_privacy", privacyMetadata .redacted "t" ["a", "b"])])
    ∧ lookupField [("a", PyVal.int 1)] "b" = Option.none
    ∧ PyVal.list [.str "a", .str "b"] ≠ PyVal.list [.str "a"] :=
  ⟨rfl, rfl, by simp⟩

/-- C1 (amended): for every record, privacy level and requested field list,
process_data succeeds and stamps a metadata block whose fields_processed is
the requested field list verbatim — absent fields included, not filtered. -/
theorem C1_theorem (key : String) (dn sn : String → Int) (d : Record)
    (level : PrivacyLevels) (fields : List String) (now : String) :
    isOkResult (process_data key dn sn (.dict d) level fields now) = true
    ∧ resultPrivacy (process_data key dn sn (.dict d) level fields now)
        = some (privacyMetadata level now fields)
    ∧ privacyMetadata level now fields
        = .dict [("level", .str level.value), ("processed_at", .str now),
                 ("fields_processed", .list (fields.map PyVal.str))] :=
  ⟨rfl, resultPrivacy_process_data key dn sn d level fields now, rfl⟩

/-! ### Claim C2: behaviour on a pre-existing _privacy field -/

/-- C2 counterexample: a record that already contains a field named
"_privacy" is processed without any error — no MetadataCollisionError
exists — and the pre-existing value "keep" is silently overwritten by the
metadata block. -/
theorem C2_counterexample :
    process_data "k" (fun _ => 0) (fun _ => 0)
        (.dict [("_privacy", .str "keep"), ("a", .int 1)]) .redacted ["a"] "t"
      = .ok (.dict [("_privacy", privacyMetadata .redacted "t" ["a"]),
                    ("a", .str "[REDACTED]")])
    ∧ lookupField [("_privacy", PyVal.str "keep"), ("a", PyVal.int 1)] "_privacy"
        = some (.str "keep")
    ∧ privacyMetadata .redacted "t" ["a"] ≠ .str "keep" :=
  ⟨rfl, rfl, by simp [privacyMetadata]⟩

/-- C2 (amended): for every record that already contains a "_privacy"
field, process_data succeeds (it does not fail with any collision error)
and the output's "_privacy" entry is the freshly stamped metadata block,
replacing the pre-existing value. -/
theorem C2_theorem (key : String) (dn sn : String → Int) (d : Record)
    (level : PrivacyLevels) (fields : List String) (now : String) (v : PyVal)
    (_hcollide : lookupField d "_privacy" = some v) :
    isOkResult (process_data key dn sn (.dict d) level fields now) = true
    ∧ resultPrivacy (process_data key dn sn (.dict d) level fields now)
        = some (privacyMetadata level now fields) :=
  ⟨rfl, resultPrivacy_process_data key dn sn d level fields now⟩

/-- C2 witness: instantiating the amended claim at a record whose
"_privacy" field holds the string "keep". -/
theorem C2_witness :
    isOkResult (process_data "k" (fun _ => 0) (fun _ => 0)
        (.dict [("_privacy", .str "keep")]) .tokenized [] "t") = true
    ∧ resultPrivacy (process_data "k" (fun _ => 0) (fun _ => 0)
        (.dict [("_privacy", .str "keep")]) .tokenized [] "t")
        = some (privacyMetadata .tokenized "t" []) :=
  C2_theorem "k" (fun _ => 0) (fun _ => 0) [("_privacy", .str "keep")]
    .tokenized [] "t" (.str "keep") rfl

/-! ### Claim C3: input validation -/

/-- C3 counterexample: the empty mapping is accepted — process_data
succeeds on it (stamping only metadata) instead of failing as the claim
requires for empty mappings. -/
theorem C3_counterexample :
    process_data "k" (fun _ => 0) (fun _ => 0) (.dict []) .redacted [] "t"
      = .ok (.dict [("_privacy", privacyMetadata .redacted "t" [])])
    ∧ (PyVal.dict []).truthy = false :=
  ⟨rfl, rfl⟩

/-- C3 (amended): process_data fails — with the code's ValueError, its
only input check — exactly when the input is not a mapping; every mapping,
empty ones included, proceeds to transform and succeeds. -/
theorem C3_theorem (key : String) (dn sn : String → Int) (data : PyVal)
    (level : PrivacyLevels) (fields : List String) (now : String) :
    isOkResult (process_data key dn sn data level fields now) = data.isDict
    ∧ (data.isDict = false →
        process_data key dn sn data level fields now
          = .error (.valueError "Input data must be a dictionary")) := by
  cases data <;> first
    | exact ⟨rfl, fun _ => rfl⟩
    | exact ⟨rfl, fun h => Bool.noConfusion h⟩

/-- C3 witness: instantiating the amended claim at the non-mapping input 3
(the ValueError branch) — the success equivalence and the error value. -/
theorem C3_witness :
    isOkResult (process_data "k" (fun _ => 0) (fun _ => 0) (.int 3) .raw [] "t")
      = (PyVal.int 3).isDict
    ∧ process_data "k" (fun _ => 0) (fun _ => 0) (.int 3) .raw [] "t"
      = .error (.valueError "Input data must be a dictionary") :=
  ⟨( C3_theorem "k" (fun _ => 0) (fun _ => 0) (.int 3) .raw [] "t").1,
   ( C3_theorem "k" (fun _ => 0) (fun _ => 0) (.int 3) .raw [] "t").2 rfl⟩

/-! ### Claim C4: pseudonym structure -/

/-- C4 counterexample: for the same raw value "v" in two different fields
"a" and "b", the keyed digest part of the pseudonym is the identical
string in both — the field name is not part of the hash input, it appears
only in the PSEUDO prefix. -/
theorem C4_counterexample :
    pseudonymize_fields "k" [("a", PyVal.str "v")] ["a"]
      = [("a", .str ("PSEUDO_a_" ++ (hmacSha256Hexdigest "k" "v").take 12))]
    ∧ pseudonymize_fields "k" [("b", PyVal.str "v")] ["b"]
      = [("b", .str ("PSEUDO_b_" ++ (hmacSha256Hexdigest "k" "v").take 12))] :=
  ⟨rfl, rfl⟩

/-- C4 (amended): the pseudonym is deterministic in value, field and key;
the keyed hash input is only the stringified value, so the truncated
12-character digest coincides across fields, and it is the PSEUDO field
prefix alone that makes pseudonyms of the same value differ between two
distinct fields. -/
theorem C4_theorem (key f1 f2 : String) (v : PyVal) (hne : f1 ≠ f2)
    (hv : v.truthy = true) :
    pseudonymize_fields key [(f1, v)] [f1]
      = [(f1, .str ("PSEUDO_" ++ f1 ++ "_" ++ (hmacSha256Hexdigest key v.pyStr).take 12))]
    ∧ pseudonymize_fields key [(f2, v)] [f2]
      = [(f2, .str ("PSEUDO_" ++ f2 ++ "_" ++ (hmacSha256Hexdigest key v.pyStr).take 12))]
    ∧ "PSEUDO_" ++ f1 ++ "_" ++ (hmacSha256Hexdigest key v.pyStr).take 12
        ≠ "PSEUDO_" ++ f2 ++ "_" ++ (hmacSha256Hexdigest key v.pyStr).take 12
    ∧ ((hmacSha256Hexdigest key v.pyStr).take 12).length = 12 := by
  refine ⟨pseudo_single key f1 v hv, pseudo_single key f2 v hv,
    pseudo_prefix_ne f1 f2 _ hne, ?_⟩
  rw [string_length_take, hmacSha256Hexdigest_length]
  rfl

/-- C4 witness: the amended claim at key "k", fields "a" and "b", value "v". -/
theorem C4_witness :
    pseudonymize_fields "k" [("a", PyVal.str "v")] ["a"]
      = [("a", .str ("PSEUDO_" ++ "a" ++ "_" ++ (hmacSha256Hexdigest "k" (PyVal.str "v").pyStr).take 12))]
    ∧ ((hmacSha256Hexdigest "k" (PyVal.str "v").pyStr).take 12).length = 12 :=
  ⟨( C4_theorem "k" "a" "b" (.str "v") (by decide) (by decide)).1,
   ( C4_theorem "k" "a" "b" (.str "v") (by decide) (by decide)).2.2.2⟩

/-! ### Claim C5: generalization error containment -/

/-- C5 counterexample: generalizing the malformed record succeeds with the
GENERALIZATION_ERROR sentinel, but the stamped metadata block is exactly
the three-entry level/processed_at/fields_processed dictionary — no
warning of any kind is recorded in the metadata, contrary to the claim. -/
theorem C5_counterexample :
    process_data "k" (fun _ => 0) (fun _ => 0)
        (.dict [("age", .str "not-a-number")]) .generalized ["age"] "t"
      = .ok (.dict [("age", .str "GENERALIZATION_ERROR"),
                    ("_privacy", .dict [("level", .str "generalized"),
                                        ("processed_at", .str "t"),
                                        ("fields_processed", .list [.str "age"])])])
    ∧ lookupField [("level", PyVal.str "generalized"), ("processed_at", PyVal.str "t"),
                   ("fields_processed", PyVal.list [.str "age"])] "warning" = Option.none
    ∧ lookupField [("level", PyVal.str "generalized"), ("processed_at", PyVal.str "t"),
                   ("fields_processed", PyVal.list [.str "age"])] "warnings" = Option.none :=
  ⟨rfl, rfl, rfl⟩

/-- C5 (amended): when a registered rule raises on a requested field's
value under the Generalized level, the call does not raise — the field is
replaced by the GENERALIZATION_ERROR sentinel, processing continues with
the remaining fields, and the call succeeds; the failure is only logged,
the stamped metadata block does not record any warning (it is exactly the
level/processed_at/fields_processed block). -/
theorem C5_theorem (key : String) (dn sn : String → Int) (now : String)
    (d : Record) (fields : List String) (f : String) (v : PyVal)
    (rule : PyVal → Option PyVal) (hrule : generalization_rules f = some rule)
    (hv : lookupField d f = some v) (hraise : rule v = Option.none) :
    generalize_fields d (f :: fields)
      = generalize_fields (setField d f (.str "GENERALIZATION_ERROR")) fields
    ∧ isOkResult (process_data key dn sn (.dict d) .generalized (f :: fields) now) = true
    ∧ resultPrivacy (process_data key dn sn (.dict d) .generalized (f :: fields) now)
        = some (privacyMetadata .generalized now (f :: fields)) := by
  refine ⟨?_, rfl, resultPrivacy_process_data key dn sn d .generalized (f :: fields) now⟩
  show List.foldl generalizeStep d (f :: fields) = _
  rw [List.foldl_cons]
  have hstep : generalizeStep d f = setField d f (.str "GENERALIZATION_ERROR") := by
    simp [generalizeStep, hv, hrule, hraise]
  rw [hstep]
  rfl

/-- C5 witness: the amended claim at the record mapping "age" to the
non-numeric string "not-a-number", whose registered rule raises. -/
theorem C5_witness :
    generalize_fields [("age", PyVal.str "not-a-number")] ["age"]
      = generalize_fields
          (setField [("age", PyVal.str "not-a-number")] "age" (.str "GENERALIZATION_ERROR")) []
    ∧ isOkResult (process_data "k" (fun _ => 0) (fun _ => 0)
        (.dict [("age", .str "not-a-number")]) .generalized ["age"] "t") = true
    ∧ resultPrivacy (process_data "k" (fun _ => 0) (fun _ => 0)
        (.dict [("age", .str "not-a-number")]) .generalized ["age"] "t")
        = some (privacyMetadata .generalized "t" ["age"]) :=
  C5_theorem "k" (fun _ => 0) (fun _ => 0) "t" [("age", .str "not-a-number")] []
    "age" (.str "not-a-number") ageRule rfl rfl rfl

/-! ### Claim C6: exception propagation -/

/-- C6 counterexample: on non-mapping input the call fails with the
original ValueError itself — not with a ProcessingError wrapper, which no
code path constructs. -/
theorem C6_counterexample :
    process_data "k" (fun _ => 0) (fun _ => 0) (.int 5) .redacted ["a"] "t"
      = .error (.valueError "Input data must be a dictionary")
    ∧ (PyError.valueError "Input data must be a dictionary").isProcessingError = false :=
  ⟨rfl, rfl⟩

/-- C6 (amended): an unrecovered exception inside process_data propagates
to the caller unchanged — the bare re-raise forwards the original
exception, there is no generic ProcessingError wrapper — and no partial
output is returned (an erroring call produces no ok result). -/
theorem C6_theorem (key : String) (dn sn : String → Int) (data : PyVal)
    (level : PrivacyLevels) (fields : List String) (now : String) (e : PyError)
    (h : process_data key dn sn data level fields now = .error e) :
    e = .valueError "Input data must be a dictionary"
    ∧ e.isProcessingError = false
    ∧ isOkResult (process_data key dn sn data level fields now) = false := by
  cases data <;> first
    | exact Except.noConfusion h
    | (injection h with h1; subst h1; exact ⟨rfl, rfl, rfl⟩)

/-- C6 witness: the amended claim at the non-mapping input 3. -/
theorem C6_witness :
    (PyError.valueError "Input data must be a dictionary")
        = .valueError "Input data must be a dictionary"
    ∧ (PyError.valueError "Input data must be a dictionary").isProcessingError = false
    ∧ isOkResult (process_data "k" (fun _ => 0) (fun _ => 0) (.int 3) .raw [] "t") = false :=
  C6_theorem "k" (fun _ => 0) (fun _ => 0) (.int 3) .raw [] "t"
    (.valueError "Input data must be a dictionary") rfl

/-! ### Claim C7: aggregation shape -/

/-- C7: under the Aggregated level every requested field present in the
record becomes the entry field_summary holding, for numeric values, the
type/count/sum/avg block with count 1 and sum = avg = the original value,
and for non-numeric values the type/categories block keyed by str(value);
in particular aggregating the record mapping "age" to 30 over the field
list ["age"] yields exactly the numeric age_summary plus metadata. -/
theorem C7_theorem (key : String) (dn sn : String → Int) (now : String)
    (data : Record) (fields : List String) (f : String) (v : PyVal)
    (hmem : f ∈ fields) (hv : lookupField data f = some v) :
    lookupField (aggregate_data data fields) (f ++ "_summary") = some (fieldSummary v)
    ∧ (v.isNumeric = true → fieldSummary v
        = .dict [("type", .str "numeric"), ("count", .int 1), ("sum", v), ("avg", v)])
    ∧ (v.isNumeric = false → fieldSummary v
        = .dict [("type", .str "categorical"),
                 ("categories", .dict [(v.pyStr, .int 1)])])
    ∧ process_data key dn sn (.dict [("age", .int 30)]) .aggregated ["age"] now
        = .ok (.dict [("age_summary", .dict [("type", .str "numeric"), ("count", .int 1),
                        ("sum", .int 30), ("avg", .int 30)]),
                      ("_privacy", privacyMetadata .aggregated now ["age"])]) := by
  refine ⟨lookupField_aggregate data fields f v hmem hv, ?_, ?_, rfl⟩
  · intro h
    simp [fieldSummary, h]
  · intro h
    simp [fieldSummary, h]

/-- C7 witness: the claim at the record mapping "age" to 30. -/
theorem C7_witness :
    lookupField (aggregate_data [("age", PyVal.int 30)] ["age"]) ("age" ++ "_summary")
      = some (fieldSummary (.int 30))
    ∧ process_data "k" (fun _ => 0) (fun _ => 0) (.dict [("age", .int 30)]) .aggregated ["age"] "t"
        = .ok (.dict [("age_summary", .dict [("type", .str "numeric"), ("count", .int 1),
                        ("sum", .int 30), ("avg", .int 30)]),
                      ("_privacy", privacyMetadata .aggregated "t" ["age"])]) :=
  ⟨( C7_theorem "k" (fun _ => 0) (fun _ => 0) "t" [("age", .int 30)] ["age"] "age" (.int 30)
      (by simp) rfl).1,
   ( C7_theorem "k" (fun _ => 0) (fun _ => 0) "t" [("age", .int 30)] ["age"] "age" (.int 30)
      (by simp) rfl).2.2.2⟩

/-! ### Claim C8: tokenization determinism and shape -/

/-- C8: tokenization of a (present, truthy) value is a pure function of
the key and the stringified value — the same token regardless of which
field holds the value, hence deterministic across repeated calls — and the
token is the TOK_ prefix plus the 64-character lowercase-hex keyed digest,
a fixed total length of 68. -/
theorem C8_theorem (key f g : String) (v : PyVal) (hv : v.truthy = true) :
    tokenize_fields key [(f, v)] [f]
      = [(f, .str ("TOK_" ++ hmacSha256Hexdigest key v.pyStr))]
    ∧ tokenize_fields key [(g, v)] [g]
      = [(g, .str ("TOK_" ++ hmacSha256Hexdigest key v.pyStr))]
    ∧ ("TOK_" ++ hmacSha256Hexdigest key v.pyStr).length = 68
    ∧ (hmacSha256Hexdigest key v.pyStr).data.all (fun c => hexChars.contains c) = true := by
  refine ⟨tokenize_single key f v hv, tokenize_single key g v hv, ?_,
    hmacSha256Hexdigest_all_hex key v.pyStr⟩
  rw [String.length_append, hmacSha256Hexdigest_length]
  rfl

/-- C8 witness: the claim at key "k", fields "email" and "age", value
"a@b.com". -/
theorem C8_witness :
    tokenize_fields "k" [("email", PyVal.str "a@b.com")] ["email"]
      = [("email", .str ("TOK_" ++ hmacSha256Hexdigest "k" (PyVal.str "a@b.com").pyStr))]
    ∧ ("TOK_" ++ hmacSha256Hexdigest "k" (PyVal.str "a@b.com").pyStr).length = 68 :=
  ⟨( C8_theorem "k" "email" "age" (.str "a@b.com") (by decide)).1,
   ( C8_theorem "k" "email" "age" (.str "a@b.com") (by decide)).2.2.1⟩

/-! ### Claim C9: redaction idempotence -/

/-- C9: redaction is idempotent — redacting an already-redacted record is
a no-op — where redaction replaces every requested field present in the
record with the fixed sentinel and consults no key (redact_fields takes
none). -/
theorem C9_theorem (data : Record) (fields : List String) :
    redact_fields (redact_fields data fields) fields = redact_fields data fields
    ∧ ∀ f ∈ fields, (lookupField data f).isSome = true →
        lookupField (redact_fields data fields) f = some (.str "[REDACTED]") :=
  ⟨redact_fields_sub_id data fields fields (fun _ h => h),
   fun f hf hs => lookupField_redact_fields_mem fields data f hf hs⟩

/-- C9 witness: idempotence and sentinel replacement on a concrete
two-field record. -/
theorem C9_witness :
    redact_fields (redact_fields [("email", PyVal.str "a@b.com"), ("n", PyVal.int 0)]
        ["email", "n"]) ["email", "n"]
      = redact_fields [("email", PyVal.str "a@b.com"), ("n", PyVal.int 0)] ["email", "n"]
    ∧ lookupField (redact_fields [("email", PyVal.str "a@b.com"), ("n", PyVal.int 0)]
        ["email", "n"]) "email" = some (.str "[REDACTED]") :=
  ⟨( C9_theorem [("email", PyVal.str "a@b.com"), ("n", PyVal.int 0)] ["email", "n"]).1,
   ( C9_theorem [("email", PyVal.str "a@b.com"), ("n", PyVal.int 0)] ["email", "n"]).2
     "email" (by simp) rfl⟩

/-! ### Claim C10: falsy values are skipped except by redaction -/

theorem lookupField_encryptStep_falsy (key : String) (d : Record) (f g : String)
    (v : PyVal) (hv : lookupField d f = some v) (hfalsy : v.truthy = false) :
    lookupField (encryptStep key d g) f = some v := by
  by_cases hfg : f = g
  · subst hfg
    simp [encryptStep, hv, hfalsy]
  · cases hd : lookupField d g with
    | none => simpa [encryptStep, hd] using hv
    | some w =>
        cases hw : w.truthy with
        | false => simpa [encryptStep, hd, hw] using hv
        | true =>
            have hstep : encryptStep key d g
                = setField d g (.str (fernetEncrypt key w.pyStr)) := by
              simp [encryptStep, hd, hw]
            rw [hstep, lookupField_setField_ne _ _ _ _ hfg]
            exact hv

theorem lookupField_tokenStep_falsy (key : String) (d : Record) (f g : String)
    (v : PyVal) (hv : lookupField d f = some v) (hfalsy : v.truthy = false) :
    lookupField (tokenStep key d g) f = some v := by
  by_cases hfg : f = g
  · subst hfg
    simp [tokenStep, hv, hfalsy]
  · cases hd : lookupField d g with
    | none => simpa [tokenStep, hd] using hv
    | some w =>
        cases hw : w.truthy with
        | false => simpa [tokenStep, hd, hw] using hv
        | true =>
            have hstep : tokenStep key d g
                = setField d g (.str ("TOK_" ++ hmacSha256Hexdigest key w.pyStr)) := by
              simp [tokenStep, hd, hw]
            rw [hstep, lookupField_setField_ne _ _ _ _ hfg]
            exact hv

theorem lookupField_pseudoStep_falsy (key : String) (d : Record) (f g : String)
    (v : PyVal) (hv : lookupField d f = some v) (hfalsy : v.truthy = false) :
    lookupField (pseudoStep key d g) f = some v := by
  by_cases hfg : f = g
  · subst hfg
    simp [pseudoStep, hv, hfalsy]
  · cases hd : lookupField d g with
    | none => simpa [pseudoStep, hd] using hv
    | some w =>
        cases hw : w.truthy with
        | false => simpa [pseudoStep, hd, hw] using hv
        | true =>
            have hstep : pseudoStep key d g
                = setField d g
                    (.str ("PSEUDO_" ++ g ++ "_" ++ (hmacSha256Hexdigest key w.pyStr).take 12)) := by
              simp [pseudoStep, hd, hw]
            rw [hstep, lookupField_setField_ne _ _ _ _ hfg]
            exact hv

theorem lookupField_encrypt_fields_falsy (key : String) (fields : List String)
    (data : Record) (f : String) (v : PyVal)
    (hv : lookupField data f = some v) (hfalsy : v.truthy = false) :
    lookupField (encrypt_sensitive_fields key data fields) f = some v := by
  induction fields generalizing data with
  | nil => simpa [encrypt_sensitive_fields] using hv
  | cons g gs ih =>
      show lookupField (List.foldl (encryptStep key) data (g :: gs)) f = some v
      rw [List.foldl_cons]
      exact ih _ (lookupField_encryptStep_falsy key data f g v hv hfalsy)

theorem lookupField_tokenize_fields_falsy (key : String) (fields : List String)
    (data : Record) (f : String) (v : PyVal)
    (hv : lookupField data f = some v) (hfalsy : v.truthy = false) :
    lookupField (tokenize_fields key data fields) f = some v := by
  induction fields generalizing data with
  | nil => simpa [tokenize_fields] using hv
  | cons g gs ih =>
      show lookupField (List.foldl (tokenStep key) data (g :: gs)) f = some v
      rw [List.foldl_cons]
      exact ih _ (lookupField_tokenStep_falsy key data f g v hv hfalsy)

theorem lookupField_pseudonymize_fields_falsy (key : String) (fields : List String)
    (data : Record) (f : String) (v : PyVal)
    (hv : lookupField data f = some v) (hfalsy : v.truthy = false) :
    lookupField (pseudonymize_fields key data fields) f = some v := by
  induction fields generalizing data with
  | nil => simpa [pseudonymize_fields] using hv
  | cons g gs ih =>
      show lookupField (List.foldl (pseudoStep key) data (g :: gs)) f = some v
      rw [List.foldl_cons]
      exact ih _ (lookupField_pseudoStep_falsy key data f g v hv hfalsy)

/-- C10: for every record and every requested field whose present value is
falsy (0, the empty string, None, False, an empty container), the
Raw-level encryption, tokenization and pseudonymization leave that field's
value unchanged — their loops transform only present truthy values — even
in mixed records whose other requested fields are truthy and do get
transformed; redaction, by contrast, replaces every present requested
field of the record, falsy or truthy alike, with the sentinel. -/
theorem C10_theorem (key : String) (data : Record) (fields : List String)
    (f : String) (v : PyVal) (_hmem : f ∈ fields)
    (hv : lookupField data f = some v) (hfalsy : v.truthy = false) :
    lookupField (encrypt_sensitive_fields key data fields) f = some v
    ∧ lookupField (tokenize_fields key data fields) f = some v
    ∧ lookupField (pseudonymize_fields key data fields) f = some v
    ∧ ∀ g ∈ fields, ∀ w, lookupField data g = some w →
        lookupField (redact_fields data fields) g = some (.str "[REDACTED]") :=
  ⟨lookupField_encrypt_fields_falsy key fields data f v hv hfalsy,
   lookupField_tokenize_fields_falsy key fields data f v hv hfalsy,
   lookupField_pseudonymize_fields_falsy key fields data f v hv hfalsy,
   fun g hg w hw => lookupField_redact_fields_mem fields data g hg (by simp [hw])⟩

/-- C10 witness: in the mixed record where "n" holds the falsy 0 and "s"
holds the truthy "x", with both fields requested, encryption,
tokenization and pseudonymization leave "n" at 0 while redaction replaces
both the truthy "s" and the falsy "n" with the sentinel. -/
theorem C10_witness :
    lookupField (encrypt_sensitive_fields "k"
        [("n", PyVal.int 0), ("s", PyVal.str "x")] ["n", "s"]) "n" = some (PyVal.int 0)
    ∧ lookupField (tokenize_fields "k"
        [("n", PyVal.int 0), ("s", PyVal.str "x")] ["n", "s"]) "n" = some (PyVal.int 0)
    ∧ lookupField (pseudonymize_fields "k"
        [("n", PyVal.int 0), ("s", PyVal.str "x")] ["n", "s"]) "n" = some (PyVal.int 0)
    ∧ lookupField (redact_fields
        [("n", PyVal.int 0), ("s", PyVal.str "x")] ["n", "s"]) "s" = some (PyVal.str "[REDACTED]")
    ∧ lookupField (redact_fields
        [("n", PyVal.int 0), ("s", PyVal.str "x")] ["n", "s"]) "n" = some (PyVal.str "[REDACTED]") :=
  ⟨( C10_theorem "k" [("n", PyVal.int 0), ("s", PyVal.str "x")] ["n", "s"] "n" (PyVal.int 0)
      (by simp) rfl rfl).1,
   ( C10_theorem "k" [("n", PyVal.int 0), ("s", PyVal.str "x")] ["n", "s"] "n" (PyVal.int 0)
      (by simp) rfl rfl).2.1,
   ( C10_theorem "k" [("n", PyVal.int 0), ("s", PyVal.str "x")] ["n", "s"] "n" (PyVal.int 0)
      (by simp) rfl rfl).2.2.1,
   ( C10_theorem "k" [("n", PyVal.int 0), ("s", PyVal.str "x")] ["n", "s"] "n" (PyVal.int 0)
      (by simp) rfl rfl).2.2.2 "s" (by simp) (PyVal.str "x") rfl,
   ( C10_theorem "k" [("n", PyVal.int 0), ("s", PyVal.str "x")] ["n", "s"] "n" (PyVal.int 0)
      (by simp) rfl rfl).2.2.2 "n" (by simp) (PyVal.int 0) rfl⟩
